import Mathlib

/-!
Shallow embedding of the Tracki offline-first sale capture and
synchronization engine.

Monetary values are modelled as rationals (ℚ), matching the idealized
decimal arithmetic the specification's `round2` describes.  `toFixed(2)`
followed by `parseFloat` in the source is modelled as rounding to the
nearest multiple of 1/100 with ties resolved toward the larger value
(the behaviour ECMAScript's `toFixed` prescribes: among the two nearest
candidates it picks the larger numerator).

Sources embedded:
  * `calculateTax` — taxUtils (`src/unnamed/part_000`)
  * `isOnline`, `storeSaleOffline`, `getPendingSales`, `markSaleAsSynced`,
    `deleteSyncedSales`, `syncPendingSales` — offlineService
    (`src/unnamed/part_006`)
  * `addSale` — `src/src/services/firestoreService.js`
  * the record-sale branch of `handleRecordSale` — `src/src/pages/RecordSale.jsx`

The IndexedDB object store is modelled as a list of records whose `id`
keys are unique (IndexedDB enforces key uniqueness via `keyPath: 'id'`);
each store operation is modelled by its record-store semantics
(add / get-then-put / index filter / delete).  Effects of the runtime
environment (`navigator.onLine`, storage availability, the outcome of
each `addSaleFunction` call, generated identifiers and clock values) are
passed in explicitly.
-/

namespace Tracki

/-- Round to the nearest 0.01; on a tie the larger value wins.
This is `parseFloat(x.toFixed(2))` of the source, in exact arithmetic. -/
def round2 (x : ℚ) : ℚ :=
  ((Int.floor (100 * x + 1/2) : ℤ) : ℚ) / 100

/-- The record returned by `calculateTax` in taxUtils. -/
structure TaxResult where
  subtotal : ℚ
  vatAmount : ℚ
  total : ℚ
deriving DecidableEq, Repr

/-- `calculateTax(subtotal, vatRate)` from taxUtils:
`vatAmount = subtotal * vatRate`, `total = subtotal + vatAmount`, then each
of the three fields is passed through `parseFloat(·.toFixed(2))`.
The source performs no input validation: every numeric input produces a
result, and nothing is clamped. -/
def calculateTax (subtotal : ℚ) (vatRate : ℚ) : TaxResult :=
  let vatAmount := subtotal * vatRate
  let total := subtotal + vatAmount
  { subtotal := round2 subtotal
    vatAmount := round2 vatAmount
    total := round2 total }

/-- One line item of a sale (`items` entries built in RecordSale.jsx). -/
structure SaleLineItem where
  productId : String
  productName : String
  quantity : ℕ
  pricePerItem : ℚ
deriving DecidableEq, Repr

/-- The sale payload: exactly the seven fields `handleRecordSale` puts in
`saleData` and `syncPendingSales` copies into `firestoreSale`. -/
structure SaleData where
  businessId : String
  recordedByUserId : String
  items : List SaleLineItem
  paymentMethod : String
  subtotal : ℚ
  vatAmount : ℚ
  total : ℚ
deriving DecidableEq, Repr

/-- A record of the IndexedDB `pending_sales` store: the spread `saleData`
plus the fields `storeSaleOffline` adds (`id`, `synced: false`, creation
and storage timestamps). -/
structure PendingSaleRecord where
  sale : SaleData
  id : String
  synced : Bool
  createdAt : ℕ
  storedAt : ℕ
deriving DecidableEq, Repr

/-- The IndexedDB object store, as the list of its records. -/
abbrev Queue := List PendingSaleRecord

/-- `storeSaleOffline(saleData)`: adds a record spreading `saleData` with a
fresh generated `id`, `synced: false` and the clock values, and returns the
new record's id.  The generated id and clock readings are parameters. -/
def storeSaleOffline (saleData : SaleData) (newId : String)
    (createdAt storedAt : ℕ) (q : Queue) : Queue × String :=
  (q ++ [{ sale := saleData, id := newId, synced := false
           createdAt := createdAt, storedAt := storedAt }], newId)

/-- `getPendingSales(businessId)`: reads the `synced` index for records with
`synced = false`, then filters by business when a business id is supplied
(`businessId = null`, modelled as `none`, skips the filter). -/
def getPendingSales (businessId : Option String) (q : Queue) :
    List PendingSaleRecord :=
  let sales := q.filter (fun r => !r.synced)
  match businessId with
  | some bid => sales.filter (fun r => r.sale.businessId == bid)
  | none => sales

/-- `markSaleAsSynced(saleId)`: `get` the record with that key and `put` it
back with `synced = true`; when no record has the key the call resolves
without touching the store. -/
def markSaleAsSynced (saleId : String) (q : Queue) : Queue :=
  q.map (fun r => if r.id == saleId then { r with synced := true } else r)

/-- `deleteSyncedSales()`: deletes every record the `synced` index reports
with `synced = true`; the rest of the store is untouched. -/
def deleteSyncedSales (q : Queue) : Queue :=
  q.filter (fun r => !r.synced)

/-- The tally `syncPendingSales` returns. -/
structure SyncResult where
  synced : ℕ
  failed : ℕ
deriving DecidableEq, Repr

/-- Everything observable about one `syncPendingSales` run: the store
afterwards, the list of sale payloads handed to successful
`addSaleFunction` calls (in call order), the returned tally, and how many
times `addSaleFunction` was invoked in total. -/
structure SyncOutcome where
  queue : Queue
  submitted : List SaleData
  result : SyncResult
  calls : ℕ
deriving DecidableEq, Repr

/-- The runtime environment of one `syncPendingSales` run:
`navigator.onLine`, whether opening/reading the store succeeds, whether the
final `deleteSyncedSales` succeeds, and the outcome of each
`addSaleFunction` call (determined by the submitted payload). -/
structure SyncEnv where
  online : Bool
  listOk : Bool
  purgeOk : Bool
  submit : SaleData → Bool

/-- `isOnline()`: reads `navigator.onLine`. -/
def isOnline (env : SyncEnv) : Bool :=
  env.online

/-- The `for (const sale of pendingSales)` loop of `syncPendingSales`:
each pending record is converted to `firestoreSale` (exactly its seven
`SaleData` fields) and submitted; on success the record is marked synced
and `synced` is incremented, on failure the error is caught, `failed` is
incremented and the loop continues with the next record. -/
def syncLoop (submit : SaleData → Bool) :
    List PendingSaleRecord → Queue → SyncOutcome
  | [], q => { queue := q, submitted := [], result := ⟨0, 0⟩, calls := 0 }
  | r :: rest, q =>
    if submit r.sale then
      let out := syncLoop submit rest (markSaleAsSynced r.id q)
      { queue := out.queue
        submitted := r.sale :: out.submitted
        result := ⟨out.result.synced + 1, out.result.failed⟩
        calls := out.calls + 1 }
    else
      let out := syncLoop submit rest q
      { queue := out.queue
        submitted := out.submitted
        result := ⟨out.result.synced, out.result.failed + 1⟩
        calls := out.calls + 1 }

/-- `syncPendingSales(addSaleFunction, businessId)`:
return `{synced: 0, failed: 0}` without touching the store when offline;
otherwise fetch the pending sales (a failure there is swallowed by the
outer catch, which returns `{synced: 0, failed: 0}`), run the loop, then
run `deleteSyncedSales` — whose failure is also swallowed by the outer
catch, again yielding `{synced: 0, failed: 0}` although the per-record
marks already persisted. -/
def syncPendingSales (env : SyncEnv) (businessId : Option String)
    (q : Queue) : SyncOutcome :=
  if isOnline env = false then
    { queue := q, submitted := [], result := ⟨0, 0⟩, calls := 0 }
  else if env.listOk = false then
    { queue := q, submitted := [], result := ⟨0, 0⟩, calls := 0 }
  else
    let pending := getPendingSales businessId q
    let out := syncLoop env.submit pending q
    if env.purgeOk then
      { out with queue := deleteSyncedSales out.queue }
    else
      { out with result := ⟨0, 0⟩ }

/-- A business document as `addSale` consults it: only `rraVatRate`
matters; `none` models a document without the field. -/
structure Business where
  rraVatRate : Option ℚ
deriving DecidableEq, Repr

/-- `business.rraVatRate || 0.18` of `addSale`: JavaScript `||` falls back
to 0.18 when the field is absent **or** equal to 0 (0 is falsy). -/
def effectiveVatRate (b : Business) : ℚ :=
  match b.rraVatRate with
  | some r => if r = 0 then 18/100 else r
  | none => 18/100

/-- The `items.reduce((sum, item) => sum + item.pricePerItem * item.quantity, 0)`
of `addSale`. -/
def itemsSubtotal (items : List SaleLineItem) : ℚ :=
  items.foldl (fun sum item => sum + item.pricePerItem * (item.quantity : ℚ)) 0

/-- The document `addSale` (firestoreService.js) writes to the `sales`
collection: it re-fetches the business, re-derives the VAT rate from the
business's **current** `rraVatRate`, recomputes the subtotal from the
items, and recomputes `vatAmount`/`total` via `calculateTax` — the
`subtotal`, `vatAmount` and `total` fields of the incoming `saleData` are
ignored.  Only `vatAmount` and `total` are destructured from
`calculateTax`, so the stored `subtotal` is the raw reduce value. -/
def addSaleDoc (business : Business) (saleData : SaleData) : SaleData :=
  let vatRate := effectiveVatRate business
  let subtotal := itemsSubtotal saleData.items
  let t := calculateTax subtotal vatRate
  { businessId := saleData.businessId
    recordedByUserId := saleData.recordedByUserId
    items := saleData.items
    paymentMethod := saleData.paymentMethod
    subtotal := subtotal
    vatAmount := t.vatAmount
    total := t.total }

/-- `addSale(saleData)`: throws (`none`) when `getBusiness` finds no
business, otherwise appends the recomputed document to the `sales`
collection. -/
def addSale (business : Option Business) (saleData : SaleData)
    (store : List SaleData) : Option (List SaleData) :=
  match business with
  | none => none
  | some b => some (store ++ [addSaleDoc b saleData])

/-- The `saleData` object `handleRecordSale` (RecordSale.jsx) builds from
the form: a single manual line item, the raw `subtotal = price * quantity`,
and `vatAmount`/`total` destructured from `calculateTax` at the page's
current VAT rate. -/
def buildSaleData (businessId userId productId productName : String)
    (price : ℚ) (quantity : ℕ) (paymentMethod : String) (vatRate : ℚ) :
    SaleData :=
  let subtotal := price * (quantity : ℚ)
  let t := calculateTax subtotal vatRate
  { businessId := businessId
    recordedByUserId := userId
    items := [{ productId := productId, productName := productName
                quantity := quantity, pricePerItem := price }]
    paymentMethod := paymentMethod
    subtotal := subtotal
    vatAmount := t.vatAmount
    total := t.total }

/-- The commit branch of `handleRecordSale`: when `isOnline()` the sale
goes through `addSale` to Firestore and the queue is untouched; otherwise
`storeSaleOffline` appends it to the queue (returning the local id) and
Firestore is untouched.  `none` in the result models the thrown error of
the online path when the business is missing. -/
def recordSale (online : Bool) (business : Option Business)
    (saleData : SaleData) (newId : String) (createdAt storedAt : ℕ)
    (store : List SaleData) (q : Queue) :
    Option (List SaleData × Queue × Option String) :=
  if online then
    (addSale business saleData store).map (fun s => (s, q, none))
  else
    some (store, (storeSaleOffline saleData newId createdAt storedAt q).1,
          some newId)

/-- Committing a run of successfully submitted sale payloads through
`addSale` against a fixed business: each submission appends exactly one
document. -/
def commitAll (b : Business) (sales : List SaleData)
    (store : List SaleData) : List SaleData :=
  sales.foldl (fun st sd => st ++ [addSaleDoc b sd]) store

/-- The business filter `getPendingSales` applies when a business id is
supplied. -/
def bidMatch (businessId : Option String) (r : PendingSaleRecord) : Bool :=
  match businessId with
  | some bid => r.sale.businessId == bid
  | none => true

/-- Proof-layer view of a batch of `markSaleAsSynced` calls: mark every
record whose id lies in `S`. -/
def markSet (S : List String) (q : Queue) : Queue :=
  q.map (fun r => if r.id ∈ S then { r with synced := true } else r)

/-- The predicate deciding which records of the original store survive a
sync run's marks (ids in `S`) followed by `deleteSyncedSales` and are
reported by `getPendingSales businessId`. -/
def pendingKeep (businessId : Option String) (S : List String)
    (r : PendingSaleRecord) : Bool :=
  !r.synced && bidMatch businessId r && !(decide (r.id ∈ S))

/-- A sale captured by the form for business `biz-1`: one manual line item
at the given price, quantity 1, cash, at the page's 18% VAT rate.  The
numeric tag makes the records of a scenario distinguishable. -/
def sampleSale (price : ℚ) (n : ℕ) : SaleData :=
  buildSaleData "biz-1" ("user-" ++ toString n) ("manual-" ++ toString n)
    "Item" price 1 "Cash" (18/100)

/-- Scenario B of the specification: three sales of subtotal 50, 75 and 20
captured at rate 0.18 while offline, queued unsynchronized. -/
def scenarioB : Queue :=
  [ { sale := sampleSale 50 1, id := "off-1", synced := false
      createdAt := 1, storedAt := 1 },
    { sale := sampleSale 75 2, id := "off-2", synced := false
      createdAt := 2, storedAt := 2 },
    { sale := sampleSale 20 3, id := "off-3", synced := false
      createdAt := 3, storedAt := 3 } ]

/-- A submitter that fails exactly on the second scenario record. -/
def scenarioSubmit (sd : SaleData) : Bool :=
  !(sd.recordedByUserId == "user-2")

/-- The store state after scenario C: the first and third records were
submitted and marked, the second failed and stays unsynchronized. -/
def scenarioCQueue : Queue :=
  [ { sale := sampleSale 50 1, id := "off-1", synced := true
      createdAt := 1, storedAt := 1 },
    { sale := sampleSale 75 2, id := "off-2", synced := false
      createdAt := 2, storedAt := 2 },
    { sale := sampleSale 20 3, id := "off-3", synced := true
      createdAt := 3, storedAt := 3 } ]

/-- A sale captured while offline at VAT rate 0.18: subtotal 100,
vatAmount 18, total 118 are computed and stored at capture time. -/
def capturedSale : SaleData :=
  buildSaleData "biz-1" "user-1" "manual-7" "Item" 100 1 "Cash" (18/100)

/-! ### Helper lemmas -/

/-- `round2` is monotone. -/
lemma round2_mono {x y : ℚ} (h : x ≤ y) : round2 x ≤ round2 y := by
  unfold round2
  have hf : Int.floor (100 * x + 1/2) ≤ Int.floor (100 * y + 1/2) := by
    apply Int.floor_le_floor
    linarith
  have : ((Int.floor (100 * x + 1/2) : ℤ) : ℚ) ≤
      ((Int.floor (100 * y + 1/2) : ℤ) : ℚ) := by exact_mod_cast hf
  linarith

/-- `⌊q⌋ ≤ -1` when `q ≤ -1/2`, used to show small negative subtotals
round below zero. -/
lemma floor_le_neg_one {q : ℚ} (h : q ≤ -1/2) : Int.floor q ≤ -1 := by
  have : Int.floor q ≤ Int.floor (-1/2 : ℚ) := Int.floor_le_floor h
  have hhalf : Int.floor (-1/2 : ℚ) = -1 := by norm_num
  omega

/-- One `markSaleAsSynced` call is the batch mark of a single id. -/
lemma markSaleAsSynced_eq_markSet (i : String) (q : Queue) :
    markSaleAsSynced i q = markSet [i] q := by
  unfold markSaleAsSynced markSet
  apply List.map_congr_left
  intro r _
  by_cases h : r.id = i
  · simp [h]
  · simp [h]

/-- Batch marks compose. -/
lemma markSet_markSet (S T : List String) (q : Queue) :
    markSet S (markSet T q) = markSet (T ++ S) q := by
  unfold markSet
  rw [List.map_map]
  apply List.map_congr_left
  intro r _
  by_cases h1 : r.id ∈ T <;> by_cases h2 : r.id ∈ S <;>
    simp [h1, h2, Function.comp]

/-- After the sync loop the store carries the marks of exactly the
successfully submitted records. -/
lemma syncLoop_queue (submit : SaleData → Bool)
    (pending : List PendingSaleRecord) : ∀ q : Queue,
    (syncLoop submit pending q).queue =
      markSet ((pending.filter (fun r => submit r.sale)).map (fun r => r.id)) q := by
  induction pending with
  | nil => intro q; simp [syncLoop, markSet]
  | cons r rest ih =>
    intro q
    by_cases h : submit r.sale <;>
      simp [syncLoop, h, ih, markSaleAsSynced_eq_markSet, markSet_markSet]

/-- The payloads handed to successful submissions are those of the
successfully submitted pending records, in order. -/
lemma syncLoop_submitted (submit : SaleData → Bool)
    (pending : List PendingSaleRecord) : ∀ q : Queue,
    (syncLoop submit pending q).submitted =
      (pending.filter (fun r => submit r.sale)).map (fun r => r.sale) := by
  induction pending with
  | nil => intro q; rfl
  | cons r rest ih =>
    intro q
    by_cases h : submit r.sale <;> simp [syncLoop, h, ih]

/-- The `synced` tally counts the successful submissions. -/
lemma syncLoop_synced (submit : SaleData → Bool)
    (pending : List PendingSaleRecord) : ∀ q : Queue,
    (syncLoop submit pending q).result.synced =
      pending.countP (fun r => submit r.sale) := by
  induction pending with
  | nil => intro q; rfl
  | cons r rest ih =>
    intro q
    by_cases h : submit r.sale <;> simp [syncLoop, h, ih, List.countP_cons]

/-- The `failed` tally counts the failed submissions. -/
lemma syncLoop_failed (submit : SaleData → Bool)
    (pending : List PendingSaleRecord) : ∀ q : Queue,
    (syncLoop submit pending q).result.failed =
      pending.countP (fun r => !submit r.sale) := by
  induction pending with
  | nil => intro q; rfl
  | cons r rest ih =>
    intro q
    by_cases h : submit r.sale <;> simp [syncLoop, h, ih, List.countP_cons]

/-- The submitter is invoked exactly once per pending record. -/
lemma syncLoop_calls (submit : SaleData → Bool)
    (pending : List PendingSaleRecord) : ∀ q : Queue,
    (syncLoop submit pending q).calls = pending.length := by
  induction pending with
  | nil => intro q; rfl
  | cons r rest ih =>
    intro q
    by_cases h : submit r.sale <;> simp [syncLoop, h, ih]

/-- `getPendingSales` as a single filter. -/
lemma getPendingSales_eq (bid : Option String) (q : Queue) :
    getPendingSales bid q = q.filter (fun r => !r.synced && bidMatch bid r) := by
  cases bid with
  | none => simp [getPendingSales, bidMatch]
  | some b =>
    show (q.filter (fun r => !r.synced)).filter (fun r => r.sale.businessId == b) = _
    rw [List.filter_filter]
    apply List.filter_congr
    intro r _
    simp [bidMatch, Bool.and_comm]

/-- What `getPendingSales` reports after a batch of marks followed by
`deleteSyncedSales`: exactly the originally pending records whose id was
not marked, each unchanged. -/
lemma purge_markSet_pending (bid : Option String) (S : List String)
    (q : Queue) :
    getPendingSales bid (deleteSyncedSales (markSet S q)) =
      q.filter (pendingKeep bid S) := by
  rw [getPendingSales_eq]
  unfold deleteSyncedSales markSet
  rw [List.filter_filter, List.filter_map]
  have hpred : ∀ r : PendingSaleRecord,
      ((fun x => (!x.synced && bidMatch bid x) && !x.synced) ∘
        (fun x => if x.id ∈ S then { x with synced := true } else x)) r =
      pendingKeep bid S r := by
    intro r
    by_cases hS : r.id ∈ S
    · simp [hS, pendingKeep, Function.comp]
    · by_cases hs : r.synced <;> simp [hS, hs, pendingKeep, Function.comp, bidMatch]
  rw [List.filter_congr (fun r _ => hpred r)]
  apply List.map_congr_left ?_ |>.trans (List.map_id _)
  intro r hr
  have : pendingKeep bid S r = true := List.mem_filter.mp hr |>.2
  have hS : r.id ∉ S := by
    unfold pendingKeep at this
    simp only [Bool.and_eq_true, Bool.not_eq_true'] at this
    simpa using this.2
  simp [hS]

/-- Over a store with pairwise-distinct ids, membership of a pending
record's id among the marked ids is equivalent to that very record having
been submitted successfully. -/
lemma pendingKeep_eq_of_nodup (bid : Option String)
    (submit : SaleData → Bool) (q : Queue)
    (hnodup : (q.map (fun r => r.id)).Nodup) :
    ∀ r ∈ q, pendingKeep bid
        (((getPendingSales bid q).filter (fun r => submit r.sale)).map
          (fun r => r.id)) r =
      (!r.synced && bidMatch bid r && !submit r.sale) := by
  intro r hr
  unfold pendingKeep
  by_cases hp : (!r.synced && bidMatch bid r) = true
  · simp only [hp, Bool.true_and]
    congr 1
    by_cases hsub : submit r.sale
    · have hmem : r.id ∈ ((getPendingSales bid q).filter
          (fun r => submit r.sale)).map (fun r => r.id) := by
        apply List.mem_map.mpr
        refine ⟨r, List.mem_filter.mpr ⟨?_, by simpa using hsub⟩, rfl⟩
        rw [getPendingSales_eq]
        exact List.mem_filter.mpr ⟨hr, hp⟩
      simp [hmem, hsub]
    · have hnmem : r.id ∉ ((getPendingSales bid q).filter
          (fun r => submit r.sale)).map (fun r => r.id) := by
        intro hmem
        obtain ⟨r', hr', hid⟩ := List.mem_map.mp hmem
        have hr'q : r' ∈ q := by
          have := List.mem_filter.mp hr' |>.1
          rw [getPendingSales_eq] at this
          exact List.mem_filter.mp this |>.1
        have : r' = r := List.inj_on_of_nodup_map hnodup hr'q hr hid
        subst this
        exact hsub (by simpa using (List.mem_filter.mp hr').2)
      simp [hnmem, hsub]
  · simp only [Bool.and_eq_true, not_and] at hp
    have : (!r.synced && bidMatch bid r) = false := by
      by_cases h1 : !r.synced <;> by_cases h2 : bidMatch bid r <;>
        simp_all
    simp [this]

/-- Successes and failures partition a batch. -/
lemma countP_add_countP_not (l : List PendingSaleRecord)
    (p : PendingSaleRecord → Bool) :
    l.countP p + l.countP (fun r => !p r) = l.length := by
  induction l with
  | nil => rfl
  | cons r rest ih =>
    by_cases h : p r <;> simp [List.countP_cons, h] <;> omega

/-- Each successfully submitted sale appended through `addSale` grows the
authoritative store by exactly one document. -/
lemma commitAll_length (b : Business) (sales : List SaleData) :
    ∀ store : List SaleData,
    (commitAll b sales store).length = store.length + sales.length := by
  induction sales with
  | nil => intro store; simp [commitAll]
  | cons sd rest ih =>
    intro store
    show (commitAll b rest (store ++ [addSaleDoc b sd])).length = _
    rw [ih]
    simp
    omega

/-! ### C2 — tax computation formula -/

/-- C2 counterexample: at `subtotal = 1/250` (0.004) and `vatRate = 1`,
`calculateTax` returns `total = round2(subtotal + vat) = 0.01`, whereas the
claimed formula `round2(subtotal) + round2(subtotal * vatRate)` gives
`0 + 0 = 0`.  The source rounds the unrounded sum, not each operand. -/
theorem calculateTax_total_claim_false :
    ¬ (calculateTax (1/250) 1).total = round2 (1/250) + round2 (1/250 * 1) := by
  simp [calculateTax, round2]
  norm_num

/-- C2 (amended): for `subtotal ≥ 0` and `vatRate ∈ [0,1]`,
`calculateTax` returns `vatAmount = round2(subtotal * vatRate)` and
`total = round2(subtotal + subtotal * vatRate)` — the sum is rounded, not
the operands — the returned total is at least the returned subtotal, and
`calculateTax 100 0.18 = {subtotal: 100, vatAmount: 18, total: 118}`. -/
theorem calculateTax_spec (s r : ℚ) (hs : 0 ≤ s) (hr0 : 0 ≤ r) (hr1 : r ≤ 1) :
    (calculateTax s r).subtotal = round2 s ∧
    (calculateTax s r).vatAmount = round2 (s * r) ∧
    (calculateTax s r).total = round2 (s + s * r) ∧
    (calculateTax s r).subtotal ≤ (calculateTax s r).total ∧
    calculateTax 100 (18/100) = ⟨100, 18, 118⟩ := by
  refine ⟨rfl, rfl, rfl, ?_, ?_⟩
  · show round2 s ≤ round2 (s + s * r)
    exact round2_mono (by nlinarith)
  · simp [calculateTax, round2, TaxResult.mk.injEq]
    norm_num

/-- Witness for `calculateTax_spec` at `subtotal = 100`, `vatRate = 0.18`. -/
theorem calculateTax_spec_witness :
    (calculateTax 100 (18/100)).vatAmount = round2 (100 * (18/100)) ∧
    (calculateTax 100 (18/100)).subtotal ≤ (calculateTax 100 (18/100)).total := by
  have h := calculateTax_spec 100 (18/100) (by norm_num) (by norm_num) (by norm_num)
  exact ⟨h.2.1, h.2.2.2.1⟩

/-! ### C8 — input validation -/

/-- C8 counterexample: at the invalid input `subtotal = -5`,
`calculateTax` does not fail and does not clamp: it returns the ordinary
computed result `{subtotal: -5, vatAmount: -0.9, total: -5.9}`.  The
source contains no validation of either argument. -/
theorem calculateTax_claim_false_on_negative :
    calculateTax (-5) (18/100) = ⟨-5, -9/10, -59/10⟩ := by
  simp [calculateTax, round2, TaxResult.mk.injEq]
  norm_num

/-- C8 (amended): `calculateTax` performs no input validation and never
fails: for every input, including a negative subtotal or a rate outside
[0,1], it returns the rounded values of the unvalidated formula; nothing
is clamped — a subtotal at or below -0.01 yields a negative returned
subtotal. -/
theorem calculateTax_no_validation (s r : ℚ) (hs : s ≤ -1/100) :
    (calculateTax s r).subtotal = round2 s ∧
    (calculateTax s r).vatAmount = round2 (s * r) ∧
    (calculateTax s r).total = round2 (s + s * r) ∧
    (calculateTax s r).subtotal < 0 := by
  refine ⟨rfl, rfl, rfl, ?_⟩
  show round2 s < 0
  unfold round2
  have hfle : Int.floor (100 * s + 1/2) ≤ -1 :=
    floor_le_neg_one (by linarith)
  have : ((Int.floor (100 * s + 1/2) : ℤ) : ℚ) ≤ -1 := by exact_mod_cast hfle
  linarith

/-- Witness for `calculateTax_no_validation` at `subtotal = -5`,
`vatRate = 0.18`. -/
theorem calculateTax_no_validation_witness :
    (calculateTax (-5) (18/100)).vatAmount = round2 ((-5) * (18/100)) ∧
    (calculateTax (-5) (18/100)).subtotal < 0 := by
  have h := calculateTax_no_validation (-5) (18/100) (by norm_num)
  exact ⟨h.2.1, h.2.2.2⟩

/-! ### C3 — partial-failure isolation -/

/-- C3: in one online `syncPendingSales` run over a store with distinct
ids, with `K` of the `N = pending.length` submissions failing, the tally is
`{synced: N - K, failed: K}` (the two counts partition `N`), exactly the
`K` failed records — unchanged — remain pending afterwards, and the
submitter was invoked once for every record, so no failure aborted the
batch. -/
theorem syncPendingSales_partial_failure (submit : SaleData → Bool)
    (bid : Option String) (q : Queue)
    (hnodup : (q.map (fun r => r.id)).Nodup) :
    (syncPendingSales ⟨true, true, true, submit⟩ bid q).result.synced =
      (getPendingSales bid q).countP (fun r => submit r.sale) ∧
    (syncPendingSales ⟨true, true, true, submit⟩ bid q).result.failed =
      (getPendingSales bid q).countP (fun r => !submit r.sale) ∧
    (syncPendingSales ⟨true, true, true, submit⟩ bid q).result.synced +
      (syncPendingSales ⟨true, true, true, submit⟩ bid q).result.failed =
      (getPendingSales bid q).length ∧
    getPendingSales bid (syncPendingSales ⟨true, true, true, submit⟩ bid q).queue =
      (getPendingSales bid q).filter (fun r => !submit r.sale) ∧
    (syncPendingSales ⟨true, true, true, submit⟩ bid q).calls =
      (getPendingSales bid q).length := by
  have hunfold : syncPendingSales ⟨true, true, true, submit⟩ bid q =
      { (syncLoop submit (getPendingSales bid q) q) with
        queue := deleteSyncedSales (syncLoop submit (getPendingSales bid q) q).queue } := by
    simp [syncPendingSales, isOnline]
  rw [hunfold]
  refine ⟨?_, ?_, ?_, ?_, ?_⟩
  · exact syncLoop_synced submit (getPendingSales bid q) q
  · exact syncLoop_failed submit (getPendingSales bid q) q
  · rw [syncLoop_synced submit (getPendingSales bid q) q,
      syncLoop_failed submit (getPendingSales bid q) q]
    exact countP_add_countP_not _ _
  · rw [syncLoop_queue submit (getPendingSales bid q) q,
      purge_markSet_pending,
      List.filter_congr (pendingKeep_eq_of_nodup bid submit q hnodup)]
    rw [getPendingSales_eq, List.filter_filter]
    apply List.filter_congr
    intro r _
    by_cases h1 : r.synced <;> by_cases h2 : bidMatch bid r <;>
      by_cases h3 : submit r.sale <;> simp [h1, h2, h3]
  · exact syncLoop_calls submit (getPendingSales bid q) q

/-- Witness for `syncPendingSales_partial_failure`: scenario C — three
queued sales for `biz-1`, a submitter failing exactly on the second —
yields `failed = 1`. -/
theorem syncPendingSales_partial_failure_witness :
    (syncPendingSales ⟨true, true, true, scenarioSubmit⟩ (some "biz-1")
      scenarioB).result.failed = 1 :=
  ((syncPendingSales_partial_failure scenarioSubmit (some "biz-1") scenarioB
    (by decide)).2.1).trans (by decide)

/-! ### C4 — queue drain -/

/-- C4: with every store record unsynchronized (as appended while offline)
and an always-succeeding submitter, one online `syncPendingSales` run
leaves nothing pending, invokes the submitter exactly once per record,
hands it exactly the queued payloads in order, reports
`{synced: N, failed: 0}`, and committing those submissions through
`addSale` grows the authoritative store by exactly `N` documents. -/
theorem syncPendingSales_drains_queue (q : Queue)
    (hall : ∀ r ∈ q, r.synced = false) :
    getPendingSales none
      (syncPendingSales ⟨true, true, true, fun _ => true⟩ none q).queue = [] ∧
    (syncPendingSales ⟨true, true, true, fun _ => true⟩ none q).calls =
      q.length ∧
    (syncPendingSales ⟨true, true, true, fun _ => true⟩ none q).submitted =
      q.map (fun r => r.sale) ∧
    (syncPendingSales ⟨true, true, true, fun _ => true⟩ none q).result =
      ⟨q.length, 0⟩ ∧
    ∀ (b : Business) (store : List SaleData),
      (commitAll b
        (syncPendingSales ⟨true, true, true, fun _ => true⟩ none q).submitted
        store).length = store.length + q.length := by
  have hpending : getPendingSales none q = q := by
    rw [getPendingSales_eq]
    apply List.filter_eq_self.mpr
    intro r hr
    simp [hall r hr, bidMatch]
  have hunfold : syncPendingSales ⟨true, true, true, fun _ => true⟩ none q =
      { (syncLoop (fun _ => true) q q) with
        queue := deleteSyncedSales (syncLoop (fun _ => true) q q).queue } := by
    simp [syncPendingSales, isOnline, hpending]
  rw [hunfold]
  have hsub : (syncLoop (fun _ => true) q q).submitted = q.map (fun r => r.sale) := by
    rw [syncLoop_submitted]
    simp
  refine ⟨?_, ?_, ?_, ?_, ?_⟩
  · rw [syncLoop_queue, purge_markSet_pending]
    rw [List.filter_eq_nil_iff]
    intro r hr
    have hid : r.id ∈ ((q.filter (fun r => true)).map (fun r => r.id)) := by
      simp only [List.filter_true]
      exact List.mem_map.mpr ⟨r, hr, rfl⟩
    simp [pendingKeep, hid]
    exact fun _ _ => ⟨r, hr, rfl⟩
  · exact syncLoop_calls _ _ _
  · exact hsub
  · have h1 := syncLoop_synced (fun _ => true) q q
    have h2 := syncLoop_failed (fun _ => true) q q
    simp only [List.countP_true, Bool.not_true, List.countP_false] at h1 h2
    cases hres : (syncLoop (fun _ => true) q q).result with
    | mk s f =>
      rw [hres] at h1 h2
      simp at h1 h2
      simp [h1, h2]
  · intro b store
    rw [hsub, commitAll_length]
    simp

/-- Witness for `syncPendingSales_drains_queue`: the three offline
captures of scenario B all drain on one run. -/
theorem syncPendingSales_drains_queue_witness :
    getPendingSales none
      (syncPendingSales ⟨true, true, true, fun _ => true⟩ none scenarioB).queue = [] ∧
    (syncPendingSales ⟨true, true, true, fun _ => true⟩ none scenarioB).calls =
      scenarioB.length :=
  ⟨(syncPendingSales_drains_queue scenarioB (by decide)).1,
   (syncPendingSales_drains_queue scenarioB (by decide)).2.1⟩

/-! ### C5 — offline short-circuit -/

/-- C5: whenever `navigator.onLine` reports offline, `syncPendingSales`
returns `{synced: 0, failed: 0}` with the store untouched, no payload
submitted and the submitter never invoked. -/
theorem syncPendingSales_offline (env : SyncEnv) (bid : Option String)
    (q : Queue) (hoff : env.online = false) :
    syncPendingSales env bid q =
      { queue := q, submitted := [], result := ⟨0, 0⟩, calls := 0 } := by
  simp [syncPendingSales, isOnline, hoff]

/-- Witness for `syncPendingSales_offline` on the scenario-B store. -/
theorem syncPendingSales_offline_witness :
    (⟨false, true, true, fun _ => true⟩ : SyncEnv).online = false ∧
    syncPendingSales ⟨false, true, true, fun _ => true⟩ (some "biz-1")
      scenarioB =
      { queue := scenarioB, submitted := [], result := ⟨0, 0⟩, calls := 0 } :=
  ⟨rfl, syncPendingSales_offline _ _ _ rfl⟩

/-! ### C6 — idempotent marking -/

/-- C6: `markSaleAsSynced` is idempotent on any store state, and marking a
non-existent or an already-synchronized record is a no-op (the call
resolves without changing the store, rather than erroring). -/
theorem markSaleAsSynced_idempotent (q : Queue) (i : String) :
    markSaleAsSynced i (markSaleAsSynced i q) = markSaleAsSynced i q ∧
    ((∀ r ∈ q, r.id ≠ i) → markSaleAsSynced i q = q) ∧
    ((∀ r ∈ q, r.id = i → r.synced = true) → markSaleAsSynced i q = q) := by
  refine ⟨?_, ?_, ?_⟩
  · unfold markSaleAsSynced
    rw [List.map_map]
    apply List.map_congr_left
    intro r _
    by_cases h : r.id = i <;> simp [h, Function.comp]
  · intro hne
    unfold markSaleAsSynced
    apply (List.map_congr_left ?_).trans (List.map_id _)
    intro r hr
    simp [hne r hr]
  · intro hsy
    unfold markSaleAsSynced
    apply (List.map_congr_left ?_).trans (List.map_id _)
    intro r hr
    by_cases h : r.id = i
    · cases r with
      | mk sale rid sy cAt sAt =>
        have hh := hsy _ hr h
        simp_all
    · simp [h]

/-- Witness for `markSaleAsSynced_idempotent` on the scenario-C store:
double-marking `off-1`, marking the absent `off-9`, and re-marking the
already-synchronized `off-1` all behave as claimed. -/
theorem markSaleAsSynced_idempotent_witness :
    markSaleAsSynced "off-1" (markSaleAsSynced "off-1" scenarioCQueue) =
      markSaleAsSynced "off-1" scenarioCQueue ∧
    markSaleAsSynced "off-9" scenarioCQueue = scenarioCQueue ∧
    markSaleAsSynced "off-1" scenarioCQueue = scenarioCQueue := by
  have h1 := markSaleAsSynced_idempotent scenarioCQueue "off-1"
  have h9 := markSaleAsSynced_idempotent scenarioCQueue "off-9"
  exact ⟨h1.1, h9.2.1 (by decide), h1.2.2 (by decide)⟩

/-! ### C7 — purge removes exactly the synchronized records -/

/-- C7: `deleteSyncedSales` keeps a subsequence of the store (so surviving
records are unmodified), every surviving record is unsynchronized, every
unsynchronized record survives, and on the scenario-C store the two
synchronized records are gone while the one unsynchronized record remains
unchanged. -/
theorem deleteSyncedSales_spec (q : Queue) :
    List.Sublist (deleteSyncedSales q) q ∧
    (∀ r ∈ deleteSyncedSales q, r.synced = false) ∧
    (∀ r ∈ q, r.synced = false → r ∈ deleteSyncedSales q) ∧
    deleteSyncedSales scenarioCQueue =
      [{ sale := sampleSale 75 2, id := "off-2", synced := false
         createdAt := 2, storedAt := 2 }] := by
  refine ⟨List.filter_sublist q, ?_, ?_, rfl⟩
  · intro r hr
    have := (List.mem_filter.mp hr).2
    simpa using this
  · intro r hr hs
    exact List.mem_filter.mpr ⟨hr, by simp [hs]⟩

/-- Witness for `deleteSyncedSales_spec` at the scenario-C store. -/
theorem deleteSyncedSales_spec_witness :
    (∀ r ∈ deleteSyncedSales scenarioCQueue, r.synced = false) ∧
    ({ sale := sampleSale 75 2, id := "off-2", synced := false
       createdAt := 2, storedAt := 2 } : PendingSaleRecord) ∈
      deleteSyncedSales scenarioCQueue := by
  have h := deleteSyncedSales_spec scenarioCQueue
  exact ⟨h.2.1, h.2.2.1 _ (List.mem_cons_of_mem _ (List.mem_cons_self _ _)) rfl⟩

/-! ### C9 — capture path selection -/

/-- C9: for a capture request against an existing business, the online
path writes the sale to the authoritative store and leaves the local queue
untouched, while the offline path leaves the authoritative store untouched
and appends one `PendingSaleRecord` with `synced = false`, returning its
local identifier; exactly one of the two effects happens on each path. -/
theorem recordSale_paths (b : Business) (sd : SaleData) (newId : String)
    (cAt sAt : ℕ) (store : List SaleData) (q : Queue) :
    recordSale true (some b) sd newId cAt sAt store q =
      some (store ++ [addSaleDoc b sd], q, none) ∧
    recordSale false (some b) sd newId cAt sAt store q =
      some (store,
        q ++ [{ sale := sd, id := newId, synced := false
                createdAt := cAt, storedAt := sAt }],
        some newId) :=
  ⟨rfl, rfl⟩

/-! ### C10 — the outer catch swallows storage errors -/

/-- C10: `syncPendingSales` reports `{synced: 0, failed: 0}` when opening
or reading the store fails (with the submitter never invoked), and also
when the final purge fails — even though by then the successful
submissions have already been handed to the authoritative store; and a run
over an empty store returns the identical outcome, so a total storage
failure is indistinguishable from an empty queue. -/
theorem syncPendingSales_swallows_errors (env : SyncEnv)
    (bid : Option String) (q : Queue) :
    (env.online = true → env.listOk = false →
      syncPendingSales env bid q =
        { queue := q, submitted := [], result := ⟨0, 0⟩, calls := 0 }) ∧
    (env.online = true → env.listOk = true → env.purgeOk = false →
      (syncPendingSales env bid q).result = ⟨0, 0⟩ ∧
      (syncPendingSales env bid q).submitted =
        ((getPendingSales bid q).filter (fun r => env.submit r.sale)).map
          (fun r => r.sale)) ∧
    syncPendingSales ⟨true, true, true, env.submit⟩ bid [] =
      { queue := [], submitted := [], result := ⟨0, 0⟩, calls := 0 } := by
  refine ⟨?_, ?_, ?_⟩
  · intro h1 h2
    simp [syncPendingSales, isOnline, h1, h2]
  · intro h1 h2 h3
    constructor
    · simp [syncPendingSales, isOnline, h1, h2, h3]
    · simp [syncPendingSales, isOnline, h1, h2, h3, syncLoop_submitted]
  · have hemp : getPendingSales bid ([] : Queue) = [] := by cases bid <;> rfl
    simp [syncPendingSales, isOnline, hemp, syncLoop, deleteSyncedSales]

/-- Witness for `syncPendingSales_swallows_errors`: online, store readable,
purge failing, all three scenario-B submissions succeeding — the tally is
still `{synced: 0, failed: 0}`. -/
theorem syncPendingSales_swallows_errors_witness :
    (syncPendingSales ⟨true, true, false, fun _ => true⟩ (some "biz-1")
      scenarioB).result = ⟨0, 0⟩ ∧
    (syncPendingSales ⟨true, true, false, fun _ => true⟩ (some "biz-1")
      scenarioB).submitted =
      ((getPendingSales (some "biz-1") scenarioB).filter
        (fun r => true)).map (fun r => r.sale) :=
  (syncPendingSales_swallows_errors ⟨true, true, false, fun _ => true⟩
    (some "biz-1") scenarioB).2.1 rfl rfl rfl

/-! ### C1 — monetary fields are re-derived at submission time -/

/-- C1 evidence: a sale captured at VAT rate 0.18 stores
`subtotal = 100, vatAmount = 18, total = 118`; the sync run hands exactly
this frozen payload to the submitter; but the document `addSale` actually
commits re-derives the rate from the business's current `rraVatRate` —
after a rate change to 0.20 the committed document carries
`vatAmount = 20, total = 120`, not the capture-time 18 / 118. -/
theorem sync_recomputes_vat_on_submission :
    capturedSale.subtotal = 100 ∧
    capturedSale.vatAmount = 18 ∧
    capturedSale.total = 118 ∧
    (syncPendingSales ⟨true, true, true, fun _ => true⟩ none
      [{ sale := capturedSale, id := "off-7", synced := false
         createdAt := 7, storedAt := 7 }]).submitted = [capturedSale] ∧
    (addSaleDoc { rraVatRate := some (20/100) } capturedSale).vatAmount = 20 ∧
    (addSaleDoc { rraVatRate := some (20/100) } capturedSale).total = 120 := by
  refine ⟨?_, ?_, ?_, rfl, ?_, ?_⟩ <;>
    · simp [capturedSale, buildSaleData, addSaleDoc, itemsSubtotal,
        effectiveVatRate, calculateTax, round2]
      try norm_num

end Tracki
